import Mathlib

/-
Verification development for the tinyhci build-lifecycle coordinator
(tools/server/main.go).  The Go server keeps a map from commit sha to
a heap-allocated Build, mutated by three HTTP handlers, and a single
worker goroutine that drains a channel of Build pointers.  We embed
this shallowly: the map is an association list from sha to a pointer,
the heap is an association list from pointer to Build (so Go pointer
aliasing between the map and the channel is modelled faithfully), and
the channel contents are a FIFO list of pointers.  External calls
(docker build, board flash, board test, the GitHub check reporting
client) live outside tools/server/main.go; they are modelled as an
oracle of pure functions, and the coordinator's calls to them are
recorded as trace actions.
-/

/-- Association-list lookup, modelling Go map indexing (`m[k]`). -/
def lookupA {κ α : Type} [DecidableEq κ] : List (κ × α) → κ → Option α
  | [], _ => none
  | (k2, v) :: rest, k => if k2 = k then some v else lookupA rest k

/-- Association-list insert/replace, modelling Go map assignment (`m[k] = v`). -/
def insertA {κ α : Type} [DecidableEq κ] : List (κ × α) → κ → α → List (κ × α)
  | [], k, v => [(k, v)]
  | (k2, v2) :: rest, k, v =>
      if k2 = k then (k, v) :: rest else (k2, v2) :: insertA rest k v

/-- A GitHub check run object, as far as the coordinator reads it
(GetID, GetName, GetHeadSHA). -/
structure CheckRun where
  id : Nat
  name : String
  headSHA : String
deriving DecidableEq

/-- Build is a specific build to be tested (struct Build in main.go).
`runs` is the map from target name to check run; the check-suite handle
is opaque to the coordinator and modelled as an optional tag. -/
structure Build where
  binaryURL : String
  sha : String
  suite : Option Nat
  runs : List (String × CheckRun)
deriving DecidableEq

/-- NewBuild returns a new Build (zero-valued binaryURL, empty runs map). -/
def NewBuild (sha : String) : Build :=
  { binaryURL := "", sha := sha, suite := none, runs := [] }

/-- The server's mutable state: the heap of Build objects (pointer to
value), the `builds` map (sha to pointer), the contents of the
`buildsCh` channel as a FIFO list of pointers, and the next fresh
pointer. -/
structure ServerState where
  heap : List (Nat × Build)
  index : List (String × Nat)
  queue : List Nat
  nextPtr : Nat
deriving DecidableEq

/-- The state right after `builds = make(map[string]*Build)`. -/
def initState : ServerState :=
  { heap := [], index := [], queue := [], nextPtr := 0 }

/-- Observable actions of the HTTP handlers: reporting calls, the
inline processBoardRun invocation done by the check-run handler on a
cached build, channel sends, and the early-return log lines of the
buildhook handler. -/
inductive HAction
  | pendingCheckSuite (sha : String)
  | inlineBoardRun (sha target : String)
  | enqueued (p : Nat)
  | logNotSuccess (sha status : String)
  | logURLError
deriving DecidableEq

/-- CheckSuiteEvent branch of the ghwebhookpath handler: received when
a new commit is pushed; unconditionally builds a fresh Build, stores it
in the map and marks the check suite pending. -/
def handleCheckSuiteEvent (st : ServerState) (sha : String) :
    ServerState × List HAction :=
  let b := NewBuild sha
  let p := st.nextPtr
  ({ heap := insertA st.heap p b
   , index := insertA st.index sha p
   , queue := st.queue
   , nextPtr := p + 1 }, [HAction.pendingCheckSuite sha])

/-- CheckRunEvent branch of the ghwebhookpath handler: if the sha is in
the cache, processBoardRun is called inline on the existing Build and
the handler returns (no state change, nothing enqueued); otherwise a
new Build holding this single check run is created, indexed and sent to
the channel. -/
def handleCheckRunEvent (st : ServerState) (sha name : String) (id : Nat) :
    ServerState × List HAction :=
  match lookupA st.index sha with
  | some _ => (st, [HAction.inlineBoardRun sha name])
  | none =>
      let b0 := NewBuild sha
      let b := { b0 with
                 runs := insertA b0.runs name
                   { id := id, name := name, headSHA := sha } }
      let p := st.nextPtr
      ({ heap := insertA st.heap p b
       , index := insertA st.index sha p
       , queue := st.queue ++ [p]
       , nextPtr := p + 1 }, [HAction.enqueued p])

/-- The CircleCI build information the buildhook handler reads
(parseBuildInfo result: Status, VCSRevision, BuildNum). -/
structure BuildInfo where
  status : String
  vcsRevision : String
  buildNum : Nat
deriving DecidableEq

/-- ciwebhookpath (buildhook) handler, after a successful
parseBuildInfo.  `urlRes` is the result of the external
getTinygoBinaryURL call (none models its error return).  The Go code
does `build := builds[bi.VCSRevision]; build.binaryURL = url` with no
ok-check: when the sha is absent the map yields nil and the field write
dereferences a nil pointer, which we model by returning `none`
(a panic). -/
def handleCIWebhook (st : ServerState) (bi : BuildInfo)
    (urlRes : Option String) : Option (ServerState × List HAction) :=
  if bi.status ≠ "success" then
    some (st, [HAction.logNotSuccess bi.vcsRevision bi.status])
  else
    match urlRes with
    | none => some (st, [HAction.logURLError])
    | some url =>
        match lookupA st.index bi.vcsRevision with
        | none => none
        | some p =>
            match lookupA st.heap p with
            | none => none
            | some b =>
                some ({ st with
                        heap := insertA st.heap p { b with binaryURL := url }
                      , queue := st.queue ++ [p] }, [HAction.enqueued p])

/-- The three coordinator events, in the vocabulary of the spec:
CommitDiscovered is the CheckSuiteEvent, RunRequested the
CheckRunEvent, ArtifactReady the buildhook delivery. -/
inductive Event
  | commitDiscovered (sha : String)
  | runRequested (sha name : String) (id : Nat)
  | artifactReady (bi : BuildInfo) (urlRes : Option String)
deriving DecidableEq

/-- One handler invocation; `none` is a handler panic. -/
def step (st : ServerState) : Event → Option (ServerState × List HAction)
  | .commitDiscovered sha => some (handleCheckSuiteEvent st sha)
  | .runRequested sha name id => some (handleCheckRunEvent st sha name id)
  | .artifactReady bi urlRes => handleCIWebhook st bi urlRes

/-- Deliver a sequence of events in transport order. -/
def runEvents (st : ServerState) : List Event → Option ServerState
  | [] => some st
  | e :: es =>
      match step st e with
      | none => none
      | some (st2, _) => runEvents st2 es

/-- Oracle for the external collaborators invoked while processing.
Modelled from the spec: the Artifact Builder is
`build(sha, binaryURL) -> (success, logOutput)` (buildDocker's exec of
docker build and its CombinedOutput), and the Board Driver is
`flash(board, sha) -> (success, output)` and
`test(board) -> (success, output)`; these functions live outside
tools/server/main.go. -/
structure Oracle where
  dockerOK : String → String → Bool
  dockerOut : String → String → String
  flash : String → String → Bool × String
  test : String → Bool × String

/-- Observable actions of the processing worker: check reporting calls
and the external invocations, in program order. -/
inductive WAction
  | startCheckSuite (sha : String)
  | dockerBuild (url sha : String)
  | failCheckSuite (sha detail : String)
  | flashBoard (target sha : String)
  | settleDelay (target : String)
  | testBoard (target : String)
  | failCheckRun (target detail : String)
  | passCheckRun (target detail : String)
deriving DecidableEq

/-- debugSkipBinaryInstall constant of main.go (set to true to use the
already installed tinygo). -/
def debugSkipBinaryInstall : Bool := true

/-- officialRelease constant of main.go. -/
def officialRelease : String :=
  "https://github.com/tinygo-org/tinygo/releases/download/v0.13.1/tinygo0.13.1.linux-amd64.tar.gz"

/-- Build.processBoardRun: flash the board; on error publish a failed
check run with the flash output and return; otherwise sleep two
seconds, run the tests, and publish pass or fail with the test
output. -/
def processBoardRun (o : Oracle) (sha target : String) : List WAction :=
  let fr := o.flash target sha
  if fr.1 then
    let tr := o.test target
    WAction.flashBoard target sha :: WAction.settleDelay target ::
      WAction.testBoard target ::
      (if tr.1 then [WAction.passCheckRun target tr.2]
       else [WAction.failCheckRun target tr.2])
  else
    [WAction.flashBoard target sha, WAction.failCheckRun target fr.2]

/-- The per-run loop of processBuilds: for each run in the build's runs
map, look up its board and call processBoardRun. -/
def processRuns (o : Oracle) (sha : String)
    (runs : List (String × CheckRun)) : List WAction :=
  (runs.map (fun r => processBoardRun o sha r.2.name)).flatten

/-- The body of processBuilds for one dequeued Build: mark the check
suite started, choose the download URL (officialRelease unless
debugSkipBinaryInstall is false), run the docker build; on error fail
the whole check suite with the fixed text and continue, otherwise
process every run. -/
def processOneBuild (o : Oracle) (b : Build) : List WAction :=
  let url := if debugSkipBinaryInstall then officialRelease else b.binaryURL
  WAction.startCheckSuite b.sha :: WAction.dockerBuild url b.sha ::
    (if o.dockerOK url b.sha then processRuns o b.sha b.runs
     else [WAction.failCheckSuite b.sha "docker build failed"])

/-- Dereference one channel element: the worker reads the Build the
pointer refers to and processes it. -/
def processPtr (o : Oracle) (heap : List (Nat × Build)) (p : Nat) :
    List WAction :=
  match lookupA heap p with
  | none => []
  | some b => processOneBuild o b

/-- The single consumer goroutine drains the channel strictly in FIFO
order, one Build at a time; its trace is the concatenation of the
per-Build traces. -/
def drainQueue (o : Oracle) (heap : List (Nat × Build)) (q : List Nat) :
    List WAction :=
  (q.map (processPtr o heap)).flatten

/-- buildDocker tags the image `tinygohci:` + sha[:7]; Go string
slicing panics when the sha is shorter than seven bytes, modelled by
`none`. -/
def buildDockerTag (sha : String) : Option String :=
  if 7 ≤ sha.length then some ("tinygohci:" ++ sha.take 7) else none

/-- Expand a handler action into the worker actions it performs: the
check-run handler's inline processBoardRun call flashes and tests
right inside the HTTP handler; every other handler action touches no
board. -/
def expandH (o : Oracle) : HAction → List WAction
  | .inlineBoardRun sha target => processBoardRun o sha target
  | _ => []

/-- Deliver events in order, collecting the board-touching actions the
handlers perform inline; `none` is a handler panic. -/
def eventsTrace (o : Oracle) (st : ServerState) :
    List Event → Option (ServerState × List WAction)
  | [] => some (st, [])
  | e :: es =>
      match step st e with
      | none => none
      | some (st2, as) =>
          match eventsTrace o st2 es with
          | none => none
          | some (st3, ws) => some (st3, (as.map (expandH o)).flatten ++ ws)

/-- One complete schedule of the system: deliver all events, then let
the worker drain the channel. -/
def systemTrace (o : Oracle) (evs : List Event) : Option (List WAction) :=
  match eventsTrace o initState evs with
  | none => none
  | some (st, ws) => some (ws ++ drainQueue o st.heap st.queue)

/-- The run statuses named by the spec data model. -/
inductive Status
  | pending
  | queued
  | flashing
  | testing
  | passed
  | failed
deriving DecidableEq

/-- Position of a status along the chain
Pending, Queued, Flashing, Testing, then the two terminal outcomes. -/
def rank : Status → Nat
  | .pending => 0
  | .queued => 1
  | .flashing => 2
  | .testing => 3
  | .passed => 4
  | .failed => 4

/-- Passed and Failed are the terminal statuses. -/
def Status.isTerminal : Status → Bool
  | .passed => true
  | .failed => true
  | _ => false

/-- Modelled from the spec: the transitions the Run-status invariant
allows — strictly forward along the chain, plus the re-run reset of a
terminal Run to Pending. -/
def specStep (a b : Status) : Bool :=
  decide (rank a < rank b) || (a.isTerminal && decide (b = Status.pending))

/-- All adjacent pairs of the list satisfy the step predicate. -/
def chainB (f : Status → Status → Bool) : List Status → Bool
  | [] => true
  | [_] => true
  | a :: b :: rest => f a b && chainB f (b :: rest)

/-- Abstraction map from one worker action to the status updates it
induces on the run for `target`: flashing when its board is flashed,
testing when its tests start, and the published outcome. -/
def statusOfW (target : String) : WAction → List Status
  | .flashBoard t _ => if t = target then [Status.flashing] else []
  | .testBoard t => if t = target then [Status.testing] else []
  | .passCheckRun t _ => if t = target then [Status.passed] else []
  | .failCheckRun t _ => if t = target then [Status.failed] else []
  | _ => []

/-- The status history of the run for `target` induced by a worker
trace. -/
def statusesIn (target : String) (ws : List WAction) : List Status :=
  (ws.map (statusOfW target)).flatten

theorem lookupA_insertA_self {κ α : Type} [DecidableEq κ]
    (l : List (κ × α)) (k : κ) (v : α) :
    lookupA (insertA l k v) k = some v := by
  induction l with
  | nil => simp [insertA, lookupA]
  | cons hd tl ih =>
      by_cases h : hd.1 = k
      · simp [insertA, lookupA, h]
      · simpa [insertA, lookupA, h] using ih

theorem lookupA_insertA_ne {κ α : Type} [DecidableEq κ]
    (l : List (κ × α)) (k k2 : κ) (v : α) (h : k ≠ k2) :
    lookupA (insertA l k v) k2 = lookupA l k2 := by
  induction l with
  | nil => simp [insertA, lookupA, h]
  | cons hd tl ih =>
      by_cases h2 : hd.1 = k
      · simp [insertA, lookupA, h2, h]
      · simp [insertA, lookupA, h2, ih]

theorem mem_keys_insertA {κ α : Type} [DecidableEq κ]
    (l : List (κ × α)) (k : κ) (v : α) (x : κ)
    (hx : x ∈ (insertA l k v).map Prod.fst) :
    x ∈ l.map Prod.fst ∨ x = k := by
  induction l with
  | nil => simpa [insertA] using hx
  | cons hd tl ih =>
      by_cases h : hd.1 = k
      · simp only [insertA, h, if_true, List.map_cons, List.mem_cons] at hx
        rcases hx with h1 | h1
        · exact Or.inr h1
        · exact Or.inl (by simp [h1])
      · simp only [insertA, h, if_false, List.map_cons, List.mem_cons] at hx
        rcases hx with h1 | h1
        · exact Or.inl (by simp [h1])
        · rcases ih h1 with h2 | h2
          · exact Or.inl (by simp [h2])
          · exact Or.inr h2

theorem keys_nodup_insertA {κ α : Type} [DecidableEq κ]
    (l : List (κ × α)) (k : κ) (v : α)
    (h : (l.map Prod.fst).Nodup) :
    ((insertA l k v).map Prod.fst).Nodup := by
  induction l with
  | nil => simp [insertA]
  | cons hd tl ih =>
      simp only [List.map_cons, List.nodup_cons] at h
      by_cases h2 : hd.1 = k
      · simp only [insertA, h2, if_true, List.map_cons, List.nodup_cons]
        exact ⟨by simpa [h2] using h.1, h.2⟩
      · simp only [insertA, h2, if_false, List.map_cons, List.nodup_cons]
        refine ⟨fun hmem => ?_, ih h.2⟩
        rcases mem_keys_insertA tl k v hd.1 hmem with h3 | h3
        · exact h.1 h3
        · exact h2 h3

theorem step_index_nodup (st st2 : ServerState) (e : Event)
    (as : List HAction) (hstep : step st e = some (st2, as))
    (h : (st.index.map Prod.fst).Nodup) :
    (st2.index.map Prod.fst).Nodup := by
  cases e with
  | commitDiscovered sha =>
      simp only [step, handleCheckSuiteEvent, Option.some.injEq, Prod.mk.injEq] at hstep
      rw [← hstep.1]
      exact keys_nodup_insertA st.index sha st.nextPtr h
  | runRequested sha name id =>
      simp only [step, handleCheckRunEvent] at hstep
      cases hl : lookupA st.index sha with
      | some p =>
          rw [hl] at hstep
          simp only [Option.some.injEq, Prod.mk.injEq] at hstep
          rw [← hstep.1]
          exact h
      | none =>
          rw [hl] at hstep
          simp only [Option.some.injEq, Prod.mk.injEq] at hstep
          rw [← hstep.1]
          exact keys_nodup_insertA st.index sha st.nextPtr h
  | artifactReady bi urlRes =>
      simp only [step, handleCIWebhook] at hstep
      by_cases hs : bi.status = "success"
      · simp only [hs, ne_eq, not_true_eq_false, if_false] at hstep
        cases urlRes with
        | none =>
            simp only [Option.some.injEq, Prod.mk.injEq] at hstep
            rw [← hstep.1]
            exact h
        | some url =>
            cases hl : lookupA st.index bi.vcsRevision with
            | none => simp only [hl] at hstep; exact absurd hstep (by simp)
            | some p =>
                cases hb : lookupA st.heap p with
                | none => simp only [hl, hb] at hstep; exact absurd hstep (by simp)
                | some b =>
                    simp only [hl, hb, Option.some.injEq, Prod.mk.injEq] at hstep
                    rw [← hstep.1]
                    exact h
      · simp only [hs, ne_eq, not_false_eq_true, if_true,
          Option.some.injEq, Prod.mk.injEq] at hstep
        rw [← hstep.1]
        exact h

/-- An oracle on which every external call succeeds. -/
def oAll : Oracle :=
  { dockerOK := fun _ _ => true
  , dockerOut := fun _ _ => "build ok"
  , flash := fun _ _ => (true, "flashed")
  , test := fun _ => (true, "tests pass") }

theorem runEvents_index_nodup (evs : List Event) :
    ∀ st st2 : ServerState, runEvents st evs = some st2 →
    (st.index.map Prod.fst).Nodup → (st2.index.map Prod.fst).Nodup := by
  induction evs with
  | nil =>
      intro st st2 hrun h
      simp only [runEvents, Option.some.injEq] at hrun
      rw [← hrun]
      exact h
  | cons e es ih =>
      intro st st2 hrun h
      simp only [runEvents] at hrun
      cases hstep : step st e with
      | none => rw [hstep] at hrun; exact absurd hrun (by simp)
      | some r =>
          rw [hstep] at hrun
          exact ih r.1 st2 hrun (step_index_nodup st r.1 e r.2 (by rw [hstep]) h)

/-- C3: a successful buildhook (ArtifactReady) delivery for a sha that
has no Build in the index is not logged and skipped: the handler reads
a nil pointer from the map and dereferences it when assigning
binaryURL, a panic (modelled as none), contradicting the
log-and-continue error policy. -/
theorem c3_unknown_sha_panics :
    handleCIWebhook initState
      { status := "success", vcsRevision := "deadbee0000", buildNum := 1 }
      (some "http://x/bin.tgz") = none := by
  rfl

/-- C6 counterexample: for a dequeued Build whose binaryURL is a known
artifact URL, the docker build is invoked with the fixed
officialRelease URL, which differs from the Build's binaryURL. -/
theorem c6_counterexample :
    (processOneBuild oAll
        { binaryURL := "http://x/bin.tgz", sha := "abc1234", suite := none
        , runs := [] }).take 2 =
      [WAction.startCheckSuite "abc1234",
       WAction.dockerBuild officialRelease "abc1234"] ∧
    officialRelease ≠ "http://x/bin.tgz" := by
  exact ⟨rfl, by decide⟩

/-- C6 amended: because the debugSkipBinaryInstall constant is true,
the worker invokes the docker build for every dequeued Build with the
fixed officialRelease URL; the Build's binaryURL would be used only if
that constant were false. -/
theorem c6_amended_official_url (o : Oracle) (b : Build) :
    (processOneBuild o b).take 2 =
      [WAction.startCheckSuite b.sha, WAction.dockerBuild officialRelease b.sha] := by
  simp [processOneBuild, debugSkipBinaryInstall]

/-- C9: a buildhook delivery whose reported status is not success
returns early: the server state (index, heap, queue) is completely
unchanged and nothing is enqueued, only a log line is emitted. -/
theorem c9_non_success_no_effect (st : ServerState) (bi : BuildInfo)
    (urlRes : Option String) (h : bi.status ≠ "success") :
    handleCIWebhook st bi urlRes =
      some (st, [HAction.logNotSuccess bi.vcsRevision bi.status]) := by
  simp [handleCIWebhook, h]

theorem c9_witness :
    handleCIWebhook initState
      { status := "failed", vcsRevision := "abc1234", buildNum := 3 }
      (some "http://x/bin.tgz") =
      some (initState, [HAction.logNotSuccess "abc1234" "failed"]) :=
  c9_non_success_no_effect initState
    { status := "failed", vcsRevision := "abc1234", buildNum := 3 }
    (some "http://x/bin.tgz") (by decide)

/-- C10: the docker build tags the image with "tinygohci:" followed by
the first seven characters of the sha, and this slicing is defined
exactly when the sha has at least seven characters; on a shorter sha
the Go slice expression panics. -/
theorem c10_buildDockerTag_defined (sha : String) :
    ((buildDockerTag sha).isSome ↔ 7 ≤ sha.length) ∧
    (7 ≤ sha.length →
      buildDockerTag sha = some ("tinygohci:" ++ sha.take 7)) := by
  constructor
  · by_cases h : 7 ≤ sha.length <;> simp [buildDockerTag, h]
  · intro h
    simp [buildDockerTag, h]

theorem c10_witness :
    buildDockerTag "abc1234def0" =
      some ("tinygohci:" ++ ("abc1234def0" : String).take 7) :=
  (c10_buildDockerTag_defined "abc1234def0").2 (by decide)

/-- Oracle whose flash fails for the arduino-nano33 target only. -/
def oFF : Oracle :=
  { dockerOK := fun _ _ => true
  , dockerOut := fun _ _ => "build ok"
  , flash := fun t _ =>
      if t = "arduino-nano33" then (false, "flash error") else (true, "flashed")
  , test := fun _ => (true, "tests pass") }

/-- C5: when the flash of a target fails, its run is published failed
with the flash output as detail, the settle delay and the test step do
not happen for it (the trace is exactly flash then failCheckRun), its
derived status is Failed, and the per-run loop still processes the
remaining targets of the same Build exactly as it would have. -/
theorem c5_flash_failure_isolated (o : Oracle) (sha out : String)
    (r : String × CheckRun) (rest : List (String × CheckRun))
    (h : o.flash r.2.name sha = (false, out)) :
    processBoardRun o sha r.2.name =
      [WAction.flashBoard r.2.name sha, WAction.failCheckRun r.2.name out] ∧
    statusesIn r.2.name (processBoardRun o sha r.2.name) =
      [Status.flashing, Status.failed] ∧
    processRuns o sha (r :: rest) =
      processBoardRun o sha r.2.name ++ processRuns o sha rest := by
  refine ⟨?_, ?_, ?_⟩
  · simp [processBoardRun, h]
  · simp [processBoardRun, h, statusesIn, statusOfW]
  · simp [processRuns]

theorem c5_witness :
    processBoardRun oFF "abc1234" "arduino-nano33" =
      [WAction.flashBoard "arduino-nano33" "abc1234",
       WAction.failCheckRun "arduino-nano33" "flash error"] ∧
    statusesIn "arduino-nano33" (processBoardRun oFF "abc1234" "arduino-nano33") =
      [Status.flashing, Status.failed] ∧
    processRuns oFF "abc1234"
        [("arduino-nano33", { id := 1, name := "arduino-nano33", headSHA := "abc1234" }),
         ("itsybitsy-m4", { id := 2, name := "itsybitsy-m4", headSHA := "abc1234" })] =
      processBoardRun oFF "abc1234" "arduino-nano33" ++
        processRuns oFF "abc1234"
          [("itsybitsy-m4", { id := 2, name := "itsybitsy-m4", headSHA := "abc1234" })] :=
  c5_flash_failure_isolated oFF "abc1234" "flash error"
    ("arduino-nano33", { id := 1, name := "arduino-nano33", headSHA := "abc1234" })
    [("itsybitsy-m4", { id := 2, name := "itsybitsy-m4", headSHA := "abc1234" })]
    rfl

/-- Oracle on which the docker build fails with a distinctive log. -/
def oBF : Oracle :=
  { dockerOK := fun _ _ => false
  , dockerOut := fun _ _ => "builder log text"
  , flash := fun _ _ => (true, "flashed")
  , test := fun _ => (true, "tests pass") }

/-- C4 counterexample: when the artifact build fails, the check suite
is failed with the fixed detail text "docker build failed", which is
not the builder's own log output (that output is only written to the
server log); the rest of the claim (no flash, no requeue) does hold. -/
theorem c4_counterexample :
    processOneBuild oBF
        { binaryURL := "", sha := "abc1234", suite := none
        , runs := [("itsybitsy-m4", { id := 1, name := "itsybitsy-m4", headSHA := "abc1234" })] } =
      [WAction.startCheckSuite "abc1234",
       WAction.dockerBuild officialRelease "abc1234",
       WAction.failCheckSuite "abc1234" "docker build failed"] ∧
    oBF.dockerOut officialRelease "abc1234" = "builder log text" ∧
    "docker build failed" ≠ "builder log text" := by
  exact ⟨rfl, rfl, by decide⟩

/-- C4 amended: when the artifact build for a dequeued Build fails, the
worker fails the whole check suite with the fixed detail text
"docker build failed" (the builder's own output is only logged), no
board is ever flashed for any target of that Build (every run stays
pending), and the Build is not requeued (the worker emits no channel
send at all). -/
theorem c4_build_failure (o : Oracle) (b : Build)
    (h : o.dockerOK officialRelease b.sha = false) :
    processOneBuild o b =
      [WAction.startCheckSuite b.sha,
       WAction.dockerBuild officialRelease b.sha,
       WAction.failCheckSuite b.sha "docker build failed"] ∧
    (∀ t s, WAction.flashBoard t s ∉ processOneBuild o b) := by
  have htr : processOneBuild o b =
      [WAction.startCheckSuite b.sha,
       WAction.dockerBuild officialRelease b.sha,
       WAction.failCheckSuite b.sha "docker build failed"] := by
    simp [processOneBuild, debugSkipBinaryInstall, h]
  refine ⟨htr, fun t s => ?_⟩
  rw [htr]
  simp

theorem c4_witness :
    processOneBuild oBF
        { binaryURL := "", sha := "bcd2345", suite := none
        , runs := [("itsybitsy-m4", { id := 1, name := "itsybitsy-m4", headSHA := "bcd2345" })] } =
      [WAction.startCheckSuite "bcd2345",
       WAction.dockerBuild officialRelease "bcd2345",
       WAction.failCheckSuite "bcd2345" "docker build failed"] :=
  (c4_build_failure oBF
    { binaryURL := "", sha := "bcd2345", suite := none
    , runs := [("itsybitsy-m4", { id := 1, name := "itsybitsy-m4", headSHA := "bcd2345" })] }
    rfl).1

/-- A state whose index caches a Build for sha abc1234 that has already
been processed and has a known binaryURL. -/
def stK : ServerState :=
  { heap := [(0, { binaryURL := "http://x/bin.tgz", sha := "abc1234", suite := none
                 , runs := [("itsybitsy-m4", { id := 7, name := "itsybitsy-m4", headSHA := "abc1234" })] })]
  , index := [("abc1234", 0)]
  , queue := []
  , nextPtr := 1 }

/-- C2 counterexample: a RunRequested for a cached Build with a known
binaryURL does not re-enqueue it — the queue stays empty and the target
is processed inline in the HTTP handler; and ArtifactReady is not the
sole enqueue trigger — a RunRequested for an unknown sha sends the
fresh Build to the channel. -/
theorem c2_counterexample :
    (handleCheckRunEvent stK "abc1234" "itsybitsy-m4" 7 =
      (stK, [HAction.inlineBoardRun "abc1234" "itsybitsy-m4"])) ∧
    (handleCheckRunEvent initState "feedbee0000" "itsybitsy-m4" 9).1.queue = [0] ∧
    (handleCheckRunEvent initState "feedbee0000" "itsybitsy-m4" 9).2 =
      [HAction.enqueued 0] := by
  exact ⟨rfl, rfl, rfl⟩

/-- C2 amended: the channel receives a Build from exactly two handler
paths — a successful ArtifactReady delivery and a RunRequested for a
sha absent from the index (which creates and enqueues a fresh Build
holding that single run); a RunRequested for a cached sha, whether or
not that Build was already processed or has a binaryURL, leaves the
state untouched and processes the single target inline in the handler
instead of re-enqueueing the Build. -/
theorem c2_enqueue_paths (st : ServerState) (sha name : String) (id : Nat) :
    (∀ p, lookupA st.index sha = some p →
      handleCheckRunEvent st sha name id =
        (st, [HAction.inlineBoardRun sha name])) ∧
    (lookupA st.index sha = none →
      (handleCheckRunEvent st sha name id).1.queue = st.queue ++ [st.nextPtr] ∧
      (handleCheckRunEvent st sha name id).2 = [HAction.enqueued st.nextPtr]) := by
  constructor
  · intro p hp
    simp [handleCheckRunEvent, hp]
  · intro hn
    constructor <;> simp [handleCheckRunEvent, hn]

theorem c2_witness :
    (handleCheckRunEvent stK "abc1234" "arduino-nano33" 11 =
      (stK, [HAction.inlineBoardRun "abc1234" "arduino-nano33"])) ∧
    (handleCheckRunEvent initState "cafebee0000" "arduino-nano33" 12).1.queue =
      initState.queue ++ [initState.nextPtr] ∧
    (handleCheckRunEvent initState "cafebee0000" "arduino-nano33" 12).2 =
      [HAction.enqueued initState.nextPtr] :=
  ⟨(c2_enqueue_paths stK "abc1234" "arduino-nano33" 11).1 0 rfl,
   (c2_enqueue_paths initState "cafebee0000" "arduino-nano33" 12).2 rfl⟩

/-- C1 counterexample: a RunRequested for a fresh sha creates a Build
(pointer 0) holding one run; a later CommitDiscovered for the very same
sha does not reuse it — the handler unconditionally builds a fresh
Build (pointer 1) with an empty runs map and replaces the index entry,
discarding the existing run. -/
theorem c1_counterexample :
    (runEvents initState [Event.runRequested "abc1234" "itsybitsy-m4" 1]).map
        (fun st => (lookupA st.index "abc1234", (lookupA st.heap 0).map Build.runs)) =
      some (some 0,
        some [("itsybitsy-m4", { id := 1, name := "itsybitsy-m4", headSHA := "abc1234" })]) ∧
    (runEvents initState [Event.runRequested "abc1234" "itsybitsy-m4" 1,
        Event.commitDiscovered "abc1234"]).map
        (fun st => (lookupA st.index "abc1234", (lookupA st.heap 1).map Build.runs)) =
      some (some 1, some []) := by
  exact ⟨rfl, rfl⟩

/-- C1 amended: after any panic-free event sequence the index binds
each sha to exactly one Build; RunRequested for a cached sha leaves the
state (hence the Build instance) untouched, and a successful
ArtifactReady for a cached sha mutates the same heap cell in place,
only setting binaryURL and so preserving the runs; however a repeated
CommitDiscovered replaces the indexed Build with a fresh empty one
(the counterexample), so instance stability holds for
RunRequested/ArtifactReady but not for CommitDiscovered. -/
theorem c1_unique_build_per_sha :
    (∀ (evs : List Event) (st2 : ServerState),
      runEvents initState evs = some st2 →
      (st2.index.map Prod.fst).Nodup) ∧
    (∀ (st : ServerState) (sha name : String) (id p : Nat),
      lookupA st.index sha = some p →
      (handleCheckRunEvent st sha name id).1 = st) ∧
    (∀ (st : ServerState) (bi : BuildInfo) (url : String) (p : Nat) (b : Build)
      (st2 : ServerState) (as : List HAction),
      bi.status = "success" →
      lookupA st.index bi.vcsRevision = some p →
      lookupA st.heap p = some b →
      handleCIWebhook st bi (some url) = some (st2, as) →
      st2.index = st.index ∧
      lookupA st2.heap p = some { b with binaryURL := url }) := by
  refine ⟨?_, ?_, ?_⟩
  · intro evs st2 h
    exact runEvents_index_nodup evs initState st2 h (by simp [initState])
  · intro st sha name id p hp
    simp [handleCheckRunEvent, hp]
  · intro st bi url p b st2 as hs hp hb hcall
    simp only [handleCIWebhook, hs, ne_eq, not_true_eq_false, if_false, hp, hb,
      Option.some.injEq, Prod.mk.injEq] at hcall
    rw [← hcall.1]
    exact ⟨rfl, lookupA_insertA_self st.heap p { b with binaryURL := url }⟩

/-- The state created by CommitDiscovered for sha abc1234. -/
def stC1 : ServerState :=
  { heap := [(0, { binaryURL := "", sha := "abc1234", suite := none, runs := [] })]
  , index := [("abc1234", 0)]
  , queue := []
  , nextPtr := 1 }

/-- stC1 after a successful ArtifactReady set its binaryURL. -/
def stC1b : ServerState :=
  { heap := [(0, { binaryURL := "http://x/bin.tgz", sha := "abc1234", suite := none, runs := [] })]
  , index := [("abc1234", 0)]
  , queue := [0]
  , nextPtr := 1 }

theorem c1_witness :
    (stC1.index.map Prod.fst).Nodup ∧
    (handleCheckRunEvent stC1 "abc1234" "itsybitsy-m4" 4).1 = stC1 ∧
    (stC1b.index = stC1.index ∧
      lookupA stC1b.heap 0 =
        some { binaryURL := "http://x/bin.tgz", sha := "abc1234", suite := none
             , runs := [] }) :=
  ⟨c1_unique_build_per_sha.1 [Event.commitDiscovered "abc1234"] stC1 rfl,
   c1_unique_build_per_sha.2.1 stC1 "abc1234" "itsybitsy-m4" 4 0 rfl,
   c1_unique_build_per_sha.2.2 stC1
     { status := "success", vcsRevision := "abc1234", buildNum := 2 }
     "http://x/bin.tgz" 0
     { binaryURL := "", sha := "abc1234", suite := none, runs := [] }
     stC1b [HAction.enqueued 0] rfl rfl rfl rfl⟩

theorem drainQueue_append (o : Oracle) (h : List (Nat × Build)) (q1 q2 : List Nat) :
    drainQueue o h (q1 ++ q2) = drainQueue o h q1 ++ drainQueue o h q2 := by
  simp [drainQueue]

/-- C8: delivering the same successful ArtifactReady twice leaves the
Build's runs map exactly as it was (no run duplicated — the handler
only rewrites binaryURL on the same heap cell), enqueues the same
pointer twice, and the single-consumer worker drains the channel in
FIFO order, so the trace of the second processing is concatenated
strictly after the trace of the first: the artifact build is never run
twice in parallel, the second delivery is queued behind the first. -/
theorem c8_artifact_ready_twice (o : Oracle) (st : ServerState)
    (bi : BuildInfo) (url : String) (p : Nat) (b : Build)
    (st1 st2 : ServerState) (as1 as2 : List HAction)
    (hs : bi.status = "success")
    (hp : lookupA st.index bi.vcsRevision = some p)
    (hb : lookupA st.heap p = some b)
    (h1 : handleCIWebhook st bi (some url) = some (st1, as1))
    (h2 : handleCIWebhook st1 bi (some url) = some (st2, as2)) :
    (lookupA st2.heap p).map Build.runs = some b.runs ∧
    st2.queue = st.queue ++ [p, p] ∧
    drainQueue o st2.heap st2.queue =
      drainQueue o st2.heap st.queue ++
        processPtr o st2.heap p ++ processPtr o st2.heap p := by
  simp only [handleCIWebhook, hs, ne_eq, not_true_eq_false, if_false, hp, hb,
    Option.some.injEq, Prod.mk.injEq] at h1
  obtain ⟨hst1, has1⟩ := h1
  subst hst1
  simp only [handleCIWebhook, hs, ne_eq, not_true_eq_false, if_false, hp,
    lookupA_insertA_self, Option.some.injEq, Prod.mk.injEq] at h2
  obtain ⟨hst2, has2⟩ := h2
  subst hst2
  refine ⟨by simp [lookupA_insertA_self], by simp, ?_⟩
  simp [drainQueue_append, drainQueue]

/-- stC1b after the second identical ArtifactReady delivery. -/
def stC8 : ServerState :=
  { heap := [(0, { binaryURL := "http://x/bin.tgz", sha := "abc1234", suite := none, runs := [] })]
  , index := [("abc1234", 0)]
  , queue := [0, 0]
  , nextPtr := 1 }

theorem c8_witness :
    (lookupA stC8.heap 0).map Build.runs =
      some ({ binaryURL := "", sha := "abc1234", suite := none
            , runs := [] } : Build).runs ∧
    stC8.queue = stC1.queue ++ [0, 0] ∧
    drainQueue oAll stC8.heap stC8.queue =
      drainQueue oAll stC8.heap stC1.queue ++
        processPtr oAll stC8.heap 0 ++ processPtr oAll stC8.heap 0 :=
  c8_artifact_ready_twice oAll stC1
    { status := "success", vcsRevision := "abc1234", buildNum := 2 }
    "http://x/bin.tgz" 0
    { binaryURL := "", sha := "abc1234", suite := none, runs := [] }
    stC1b stC8 [HAction.enqueued 0] [HAction.enqueued 0]
    rfl rfl rfl rfl rfl

/-- C7 counterexample: a RunRequested on a fresh sha followed by one
successful ArtifactReady enqueues the same Build twice, and the worker
processes it twice in sequence; the derived status history of the
itsybitsy-m4 run then moves Passed back to Flashing although no re-run
request intervened and the run was never reset to Pending, so the
claimed forward-only/terminal discipline fails on the code. -/
theorem c7_counterexample :
    (systemTrace oAll [Event.runRequested "abc1234" "itsybitsy-m4" 1,
        Event.artifactReady
          { status := "success", vcsRevision := "abc1234", buildNum := 5 }
          (some "http://x/bin.tgz")]).map (statusesIn "itsybitsy-m4") =
      some [Status.flashing, Status.testing, Status.passed,
            Status.flashing, Status.testing, Status.passed] ∧
    chainB specStep
      [Status.flashing, Status.testing, Status.passed,
       Status.flashing, Status.testing, Status.passed] = false := by
  exact ⟨rfl, rfl⟩

/-- C7 amended: the Go Run record carries no status field; interpreting
the spec statuses through the abstraction of the processing trace, the
status history of one flash/settle/test cycle, starting from Pending at
creation, does move strictly forward along
Pending, Queued, Flashing, Testing, then Passed or Failed; but
terminality of Passed/Failed is not guaranteed across deliveries,
because a redelivered ArtifactReady (or an inline re-run) re-flashes a
terminal run without any reset to Pending. -/
theorem c7_single_pass_forward (o : Oracle) (sha target : String) :
    chainB specStep
      (Status.pending :: statusesIn target (processBoardRun o sha target)) = true := by
  rcases hf : o.flash target sha with ⟨ok, fout⟩
  cases ok with
  | false =>
      simp [processBoardRun, hf, statusesIn, statusOfW, chainB, specStep, rank,
        Status.isTerminal]
  | true =>
      rcases ht : o.test target with ⟨tok, tout⟩
      cases tok <;>
        simp [processBoardRun, hf, ht, statusesIn, statusOfW, chainB, specStep,
          rank, Status.isTerminal]
